import Mathlib

/-!
# fixed-cropper : Canvas Placement Model, verified

A shallow embedding of the placement / clamping / zoom / render arithmetic of
`src/fixed_cropper/main_window.py` (class `MainWindow`), together with proofs
of the spec's testable properties.

Numeric values that the Python code holds in floats are modelled as exact
rationals (`ℚ`): the placement model is pure real arithmetic (min / max /
affine maps), so `ℚ` is the faithful idealisation.  Qt geometry is modelled
explicitly: a `QGraphicsPixmapItem` with position `(x, y)` and scale `s`
(about the default transform origin `(0,0)`) maps an item-local point `p` to
the scene point `pos + s·p`, hence `mapFromScene c = (c - pos) / s` and
`mapToScene p = pos + s·p`.  `output_size.rect.center()` of the
`QRectF(0, 0, fw, fh)` is `(fw/2, fh/2)`.
-/

namespace FixedCropper

/-- The mutable placement state of the loaded image, as held by the
`QGraphicsPixmapItem`: source pixmap dimensions `iw × ih`, scale `s`
(`item.scale()`), and position `(x, y)` of the item's top-left corner in
frame coordinates (`item.pos()`). -/
@[ext]
structure ImgState where
  iw : ℚ
  ih : ℚ
  s : ℚ
  x : ℚ
  y : ℚ
  deriving DecidableEq, Repr

/-- Model of `MainWindow._clamp_image_pos` (main_window.py:1891-1910): with frame
`fw × fh` and scaled image size `(iw·s, ih·s)`, clamp the position to
`min_x = -iw·s + fw·0.25`, `max_x = fw - fw·0.25` (and likewise for y),
via `x = min(max_x, max(min_x, x))`. -/
def clamp_image_pos (fw fh : ℚ) (st : ImgState) : ImgState :=
  let iw := st.iw * st.s
  let ih := st.ih * st.s
  let min_x := -iw + fw * (1/4)
  let max_x := fw - fw * (1/4)
  let min_y := -ih + fh * (1/4)
  let max_y := fh - fh * (1/4)
  { st with
    x := min max_x (max min_x st.x)
    y := min max_y (max min_y st.y) }

/-- Model of `MainWindow._place_image_initial` (main_window.py:1650-1668): fit-contain
scale `s = min(fw/iw, fh/ih)`, centred position, then clamp. -/
def place_image_initial (fw fh : ℚ) (st : ImgState) : ImgState :=
  let s := min (fw / st.iw) (fh / st.ih)
  let scaled_w := st.iw * s
  let scaled_h := st.ih * s
  clamp_image_pos fw fh
    { st with s := s, x := (fw - scaled_w) / 2, y := (fh - scaled_h) / 2 }

/-- Model of `MainWindow._apply_image_scale_and_center` (main_window.py:1711-1722):
set the given scale, centre the image in both axes, then clamp. -/
def apply_image_scale_and_center (fw fh scale : ℚ) (st : ImgState) : ImgState :=
  let iw := st.iw * scale
  let ih := st.ih * scale
  clamp_image_pos fw fh
    { st with s := scale, x := (fw - iw) / 2, y := (fh - ih) / 2 }

/-- Model of `MainWindow.fit_image_to_width` (main_window.py:1671-1680):
`s = fw / iw`, then `_apply_image_scale_and_center(s)`. -/
def fit_image_to_width (fw fh : ℚ) (st : ImgState) : ImgState :=
  apply_image_scale_and_center fw fh (fw / st.iw) st

/-- Model of `MainWindow.fit_image_to_height` (main_window.py:1686-1695):
`s = fh / ih`, then `_apply_image_scale_and_center(s)`. -/
def fit_image_to_height (fw fh : ℚ) (st : ImgState) : ImgState :=
  apply_image_scale_and_center fw fh (fh / st.ih) st

/-- Model of `MainWindow.fit_image_contain` (main_window.py:1698-1708):
`s = min(fw/iw, fh/ih)`, then `_apply_image_scale_and_center(s)`. -/
def fit_image_contain (fw fh : ℚ) (st : ImgState) : ImgState :=
  apply_image_scale_and_center fw fh (min (fw / st.iw) (fh / st.ih)) st

/-- Model of `MainWindow.nudge_image_pos` (main_window.py:1583-1588):
`setPos(p.x()+dx, p.y()+dy)`, then clamp. -/
def nudge_image_pos (fw fh : ℚ) (dx dy : ℤ) (st : ImgState) : ImgState :=
  clamp_image_pos fw fh { st with x := st.x + dx, y := st.y + dy }

/-- Model of `MainWindow.align_center` (main_window.py:1737-1743). -/
def align_center (fw fh : ℚ) (st : ImgState) : ImgState :=
  clamp_image_pos fw fh
    { st with x := (fw - st.iw * st.s) / 2, y := (fh - st.ih * st.s) / 2 }

/-- Model of `MainWindow.align_center_vertical` (main_window.py:1745-1753). -/
def align_center_vertical (fw fh : ℚ) (st : ImgState) : ImgState :=
  clamp_image_pos fw fh { st with y := (fh - st.ih * st.s) / 2 }

/-- Model of `MainWindow.align_center_horizontal` (main_window.py:1755-1763). -/
def align_center_horizontal (fw fh : ℚ) (st : ImgState) : ImgState :=
  clamp_image_pos fw fh { st with x := (fw - st.iw * st.s) / 2 }

/-- Model of `MainWindow.align_top` (main_window.py:1765-1769). -/
def align_top (fw fh : ℚ) (st : ImgState) : ImgState :=
  clamp_image_pos fw fh { st with y := 0 }

/-- Model of `MainWindow.align_bottom` (main_window.py:1771-1777). -/
def align_bottom (fw fh : ℚ) (st : ImgState) : ImgState :=
  clamp_image_pos fw fh { st with y := fh - st.ih * st.s }

/-- Model of `MainWindow.align_left` (main_window.py:1779-1783). -/
def align_left (fw fh : ℚ) (st : ImgState) : ImgState :=
  clamp_image_pos fw fh { st with x := 0 }

/-- Model of `MainWindow.align_right` (main_window.py:1785-1791). -/
def align_right (fw fh : ℚ) (st : ImgState) : ImgState :=
  clamp_image_pos fw fh { st with x := fw - st.iw * st.s }

/-- The anchor-preserving rescale block inlined identically in
`set_image_scale_percent` (main_window.py:1569-1579),
`reset_image_scale_100` (main_window.py:1794-1806) and
`zoom_image` (main_window.py:1832-1841):

    center      = output_size.rect.center()        -- (fw/2, fh/2)
    item_local  = item.mapFromScene(center)        -- (center - pos) / s
    item.setScale(new_s)
    new_center  = item.mapToScene(item_local)      -- pos + new_s · item_local
    item.setPos(item.pos() + (center - new_center))
    _clamp_image_pos()
-/
def rescale_about_center_raw (fw fh new_s : ℚ) (st : ImgState) : ImgState :=
  let cx := fw / 2
  let cy := fh / 2
  let lx := (cx - st.x) / st.s
  let ly := (cy - st.y) / st.s
  let ncx := st.x + new_s * lx
  let ncy := st.y + new_s * ly
  { st with s := new_s, x := st.x + (cx - ncx), y := st.y + (cy - ncy) }

/-- The anchor-preserving rescale followed by the clamp, as all three call
sites perform it. -/
def rescale_about_center (fw fh new_s : ℚ) (st : ImgState) : ImgState :=
  clamp_image_pos fw fh (rescale_about_center_raw fw fh new_s st)

/-- Model of `MainWindow.set_image_scale_percent` (main_window.py:1561-1580):
`p = max(1.0, min(5000.0, percent))`, `new_s = p / 100`, then the
anchor-preserving rescale and clamp. -/
def set_image_scale_percent (fw fh percent : ℚ) (st : ImgState) : ImgState :=
  let p := max 1 (min 5000 percent)
  rescale_about_center fw fh (p / 100) st

/-- Model of `MainWindow.reset_image_scale_100` (main_window.py:1794-1806):
anchor-preserving rescale to `1.0`, then clamp. -/
def reset_image_scale_100 (fw fh : ℚ) (st : ImgState) : ImgState :=
  rescale_about_center fw fh 1 st

/-- The wheel-zoom step kind (`step` argument of `zoom_image`). -/
inductive ZoomStep where
  | normal
  | fine
  | ultra
  deriving DecidableEq, Repr

/-- The step base of `zoom_image`: ultra = 1.01, fine = 1.03, otherwise 1.15. -/
def zoom_base : ZoomStep → ℚ
  | .ultra => 101 / 100
  | .fine => 103 / 100
  | .normal => 115 / 100

/-- The candidate new scale computed by `zoom_image` (main_window.py:1824-1827):
`factor = base if zoom_in else 1/base`, then
`new_s = max(0.02, min(50.0, old_s * factor))`. -/
def zoom_new_s (zoom_in : Bool) (step : ZoomStep) (old_s : ℚ) : ℚ :=
  let base := zoom_base step
  let factor := if zoom_in then base else 1 / base
  max (2/100) (min 50 (old_s * factor))

/-- Model of `MainWindow.zoom_image` (main_window.py:1809-1842): compute
`new_s = max(0.02, min(50.0, old_s*factor))`; early return (no state
change at all) when `abs(new_s - old_s) < 1e-12`; otherwise the
anchor-preserving rescale to `new_s` followed by the clamp. -/
def zoom_image (fw fh : ℚ) (zoom_in : Bool) (step : ZoomStep) (st : ImgState) :
    ImgState :=
  let new_s := zoom_new_s zoom_in step st.s
  if |new_s - st.s| < 1 / 10 ^ 12 then st
  else rescale_about_center fw fh new_s st

/-- The horizontal overlap length between the image's scaled bounding box
`[x, x + iw·s]` and the frame's horizontal extent `[0, fw]` (the quantity the
spec's clamp rationale bounds). -/
def overlapX (fw : ℚ) (st : ImgState) : ℚ :=
  min (st.x + st.iw * st.s) fw - max st.x 0

/-- The vertical overlap length between `[y, y + ih·s]` and `[0, fh]`. -/
def overlapY (fh : ℚ) (st : ImgState) : ℚ :=
  min (st.y + st.ih * st.s) fh - max st.y 0

/-- The overlap invariant actually guaranteed by the clamp rule: in each axis
the image's scaled bounding box overlaps the frame by at least the smaller of
the scaled image extent and a quarter of the frame extent. -/
def overlapInv (fw fh : ℚ) (st : ImgState) : Prop :=
  min (st.iw * st.s) (fw * (1/4)) ≤ overlapX fw st
  ∧ min (st.ih * st.s) (fh * (1/4)) ≤ overlapY fh st

/-- The image-local (unscaled, unpositioned) point that the frame's geometric
center `(fw/2, fh/2)` currently maps to: `item.mapFromScene(center)`,
i.e. `(center - pos) / scale`. -/
def frame_center_local (fw fh : ℚ) (st : ImgState) : ℚ × ℚ :=
  ((fw / 2 - st.x) / st.s, (fh / 2 - st.y) / st.s)

/-- An RGBA pixel value. -/
structure RGBA where
  r : ℕ
  g : ℕ
  b : ℕ
  a : ℕ
  deriving DecidableEq, Repr

/-- A raster image as the imaging library hands it around: pixel dimensions
plus a pixel function. -/
structure PILImage where
  w : ℕ
  h : ℕ
  pix : ℕ → ℕ → RGBA

/-- Model of `Image.new(mode, (w, h), fill)`: a `w × h` image uniformly filled with
`fill` (the library's documented contract). -/
def imageNew (w h : ℕ) (fill : RGBA) : PILImage :=
  { w := w, h := h, pix := fun _ _ => fill }

/-- Python 3 `round` on an exact rational: round half to even
(banker's rounding), as `int(round(...))` performs it. -/
def pyRound (q : ℚ) : ℤ :=
  let f := ⌊q⌋
  let r := q - f
  if r < 1/2 then f
  else if 1/2 < r then f + 1
  else if f % 2 = 0 then f else f + 1

/-- The resize dimensions of `_render_output_pil` (main_window.py:1864-1865):
`new_w = max(1, int(round(src.width * s)))` and
`new_h = max(1, int(round(src.height * s)))`. -/
def render_resize_dims (srcW srcH : ℕ) (s : ℚ) : ℤ × ℤ :=
  (max 1 (pyRound (srcW * s)), max 1 (pyRound (srcH * s)))

/-- Model of `MainWindow._render_output_pil` (main_window.py:1845-1872).  The imaging
library's primitives — `ImageOps.exif_transpose`, `convert("RGBA")`,
`resize(..., LANCZOS)`, `paste(resized, (x, y), resized)`, `convert("RGB")` —
are external collaborators, passed in as opaque function parameters; the
routine allocates a canvas of the frame size filled with the background
color (alpha 255), returns it unchanged when no image is loaded, and
otherwise orients/normalises the source, resizes it to
`render_resize_dims`, pastes at the rounded position and flattens to RGB. -/
def render_output_pil
    (exifTranspose convertRGBA : PILImage → PILImage)
    (resizeFn : PILImage → ℤ × ℤ → PILImage)
    (pasteFn : PILImage → PILImage → ℤ × ℤ → PILImage)
    (convertRGB : PILImage → PILImage)
    (fw fh : ℕ) (bgR bgG bgB : ℕ)
    (img : Option PILImage) (s x y : ℚ) : PILImage :=
  let canvas := imageNew fw fh ⟨bgR, bgG, bgB, 255⟩
  match img with
  | none => canvas
  | some im =>
    let src := convertRGBA (exifTranspose im)
    let xi := pyRound x
    let yi := pyRound y
    let dims := render_resize_dims src.w src.h s
    let resized := resizeFn src dims
    convertRGB (pasteFn canvas resized (xi, yi))

/-- Model of `MainWindow._remember_custom_size` (main_window.py:1980-1987): drop every
occurrence of the key from the recent-sizes list, insert the key at the
front, truncate to 10 entries. -/
def remember_custom_size (sizes : List (ℤ × ℤ)) (w h : ℤ) : List (ℤ × ℤ) :=
  let key := (w, h)
  let filtered := sizes.filter (fun s => s ≠ key)
  (key :: filtered).take 10

/-- Model of `MainWindow._remember_bg_color` (main_window.py:1989-1995): the same
move-to-front on the recent background colors, keyed by the normalised
`"#RRGGBB"` name. -/
def remember_bg_color (cols : List String) (name : String) : List String :=
  let filtered := cols.filter (fun x => x ≠ name)
  (name :: filtered).take 10

end FixedCropper

namespace FixedCropper

/-- Projection: the clamp only rewrites `x`, to the spec's formula. -/
lemma clamp_image_pos_x (fw fh : ℚ) (st : ImgState) :
    (clamp_image_pos fw fh st).x
      = min (fw - fw * (1/4)) (max (-(st.iw * st.s) + fw * (1/4)) st.x) := rfl

/-- Projection: the clamp only rewrites `y`, to the spec's formula. -/
lemma clamp_image_pos_y (fw fh : ℚ) (st : ImgState) :
    (clamp_image_pos fw fh st).y
      = min (fh - fh * (1/4)) (max (-(st.ih * st.s) + fh * (1/4)) st.y) := rfl

/-- Projection: the clamp leaves the image dimensions and scale alone. -/
lemma clamp_image_pos_iw (fw fh : ℚ) (st : ImgState) :
    (clamp_image_pos fw fh st).iw = st.iw := rfl

lemma clamp_image_pos_ih (fw fh : ℚ) (st : ImgState) :
    (clamp_image_pos fw fh st).ih = st.ih := rfl

lemma clamp_image_pos_s (fw fh : ℚ) (st : ImgState) :
    (clamp_image_pos fw fh st).s = st.s := rfl

/-- Key lemma: for every input state, the state produced by
`_clamp_image_pos` satisfies the overlap invariant. -/
lemma clamp_overlapInv (fw fh : ℚ) (st : ImgState)
    (hfw : 0 < fw) (hfh : 0 < fh) :
    overlapInv fw fh (clamp_image_pos fw fh st) := by
  constructor
  · simp only [overlapX, clamp_image_pos_x, clamp_image_pos_iw, clamp_image_pos_s]
    simp only [min_def, max_def]
    split_ifs <;> linarith
  · simp only [overlapY, clamp_image_pos_y, clamp_image_pos_ih, clamp_image_pos_s]
    simp only [min_def, max_def]
    split_ifs <;> linarith

/-- C1: the clamp rule computes exactly the spec's formula, and on the
spec's scenario — position (2000, 0), scaled image size (100, 100), frame
1920×1080 — the clamped x is 1440. -/
theorem clamp_formula_and_scenario (fw fh : ℚ) (st : ImgState) :
    (clamp_image_pos fw fh st).x
      = min (fw - fw * (1/4)) (max (-(st.iw * st.s) + fw * (1/4)) st.x)
    ∧ (clamp_image_pos fw fh st).y
      = min (fh - fh * (1/4)) (max (-(st.ih * st.s) + fh * (1/4)) st.y)
    ∧ (clamp_image_pos fw fh st).iw = st.iw
    ∧ (clamp_image_pos fw fh st).ih = st.ih
    ∧ (clamp_image_pos fw fh st).s = st.s
    ∧ (clamp_image_pos 1920 1080 ⟨100, 100, 1, 2000, 0⟩).x = 1440 := by
  refine ⟨rfl, rfl, rfl, rfl, rfl, ?_⟩
  norm_num [clamp_image_pos, min_def, max_def]

/-- C2, counterexample: with frame 1920×1080 (positive) and scaled image size
100×100 (positive), clamping position (2000, 0) yields x = 1440, where the
horizontal overlap with the frame is 100 < 0.25·1920 = 480 — so the clamp
does not guarantee an overlap of at least a quarter of the frame width. -/
theorem overlap_quarter_counterexample :
    0 < (1920 : ℚ) ∧ 0 < (1080 : ℚ)
    ∧ 0 < (⟨100, 100, 1, 2000, 0⟩ : ImgState).iw * (⟨100, 100, 1, 2000, 0⟩ : ImgState).s
    ∧ 0 < (⟨100, 100, 1, 2000, 0⟩ : ImgState).ih * (⟨100, 100, 1, 2000, 0⟩ : ImgState).s
    ∧ overlapX 1920 (clamp_image_pos 1920 1080 ⟨100, 100, 1, 2000, 0⟩)
        < 1920 * (1/4) := by
  refine ⟨by norm_num, by norm_num, by norm_num, by norm_num, ?_⟩
  norm_num [overlapX, clamp_image_pos_x, clamp_image_pos_iw, clamp_image_pos_s,
    min_def, max_def]

/-- C2, amended: after `_clamp_image_pos` the image's scaled bounding box
overlaps the frame in each axis by at least `min(iw·s, 0.25·fw)`
(resp. `min(ih·s, 0.25·fh)`); since every position/scale mutation (initial
placement, the fits, the aligns, nudge, percent entry, reset-100, zoom) ends
by invoking the clamp, the invariant holds after each of them — `zoom_image`
alone may early-return the state unchanged, stated here as a disjunction. -/
theorem overlap_invariant_after_mutations (fw fh : ℚ) (st : ImgState)
    (dx dy : ℤ) (p new_s : ℚ) (zin : Bool) (step : ZoomStep)
    (hfw : 0 < fw) (hfh : 0 < fh) :
    overlapInv fw fh (clamp_image_pos fw fh st)
    ∧ overlapInv fw fh (place_image_initial fw fh st)
    ∧ overlapInv fw fh (fit_image_to_width fw fh st)
    ∧ overlapInv fw fh (fit_image_to_height fw fh st)
    ∧ overlapInv fw fh (fit_image_contain fw fh st)
    ∧ overlapInv fw fh (align_center fw fh st)
    ∧ overlapInv fw fh (align_center_vertical fw fh st)
    ∧ overlapInv fw fh (align_center_horizontal fw fh st)
    ∧ overlapInv fw fh (align_top fw fh st)
    ∧ overlapInv fw fh (align_bottom fw fh st)
    ∧ overlapInv fw fh (align_left fw fh st)
    ∧ overlapInv fw fh (align_right fw fh st)
    ∧ overlapInv fw fh (nudge_image_pos fw fh dx dy st)
    ∧ overlapInv fw fh (set_image_scale_percent fw fh p st)
    ∧ overlapInv fw fh (reset_image_scale_100 fw fh st)
    ∧ overlapInv fw fh (rescale_about_center fw fh new_s st)
    ∧ (zoom_image fw fh zin step st = st
        ∨ overlapInv fw fh (zoom_image fw fh zin step st)) := by
  refine ⟨clamp_overlapInv fw fh _ hfw hfh, clamp_overlapInv fw fh _ hfw hfh,
    clamp_overlapInv fw fh _ hfw hfh, clamp_overlapInv fw fh _ hfw hfh,
    clamp_overlapInv fw fh _ hfw hfh, clamp_overlapInv fw fh _ hfw hfh,
    clamp_overlapInv fw fh _ hfw hfh, clamp_overlapInv fw fh _ hfw hfh,
    clamp_overlapInv fw fh _ hfw hfh, clamp_overlapInv fw fh _ hfw hfh,
    clamp_overlapInv fw fh _ hfw hfh, clamp_overlapInv fw fh _ hfw hfh,
    clamp_overlapInv fw fh _ hfw hfh, clamp_overlapInv fw fh _ hfw hfh,
    clamp_overlapInv fw fh _ hfw hfh, clamp_overlapInv fw fh _ hfw hfh, ?_⟩
  by_cases h : |zoom_new_s zin step st.s - st.s| < 1 / 10 ^ 12
  · exact Or.inl (by simp only [zoom_image]; rw [if_pos h])
  · refine Or.inr ?_
    have : zoom_image fw fh zin step st
        = rescale_about_center fw fh (zoom_new_s zin step st.s) st := by
      simp only [zoom_image]; rw [if_neg h]
    rw [this]
    exact clamp_overlapInv fw fh _ hfw hfh

/-- Witness for the amended C2 invariant at frame 1920×1080 with image
800×600 at scale 1 positioned at (240, 0). -/
theorem overlap_invariant_after_mutations_witness :
    0 < (1920 : ℚ) ∧ 0 < (1080 : ℚ)
    ∧ overlapInv 1920 1080 (clamp_image_pos 1920 1080 ⟨800, 600, 1, 240, 0⟩) :=
  ⟨by norm_num, by norm_num,
    (overlap_invariant_after_mutations 1920 1080 ⟨800, 600, 1, 240, 0⟩
      5 (-3) 150 2 true .normal (by norm_num) (by norm_num)).1⟩

/-- C4: any anchor-preserving rescale (the shared block of wheel zoom,
percent entry and reset-scale-100) maps the frame center to the SAME
image-local point before and after the scale change — exactly, hence in
particular within 1e-6 — provided the final clamp does not move the
position; moreover reset-scale-100 is exactly that rescale with scale 1.0,
the percent path is that rescale with the clamped percent / 100, and a
non-early-returning wheel zoom is that rescale with the clamped stepped
scale. -/
theorem anchor_preserving_rescale (fw fh new_s p : ℚ) (st : ImgState)
    (zin : Bool) (step : ZoomStep)
    (hs : st.s ≠ 0) (hns : new_s ≠ 0)
    (hnc : clamp_image_pos fw fh (rescale_about_center_raw fw fh new_s st)
            = rescale_about_center_raw fw fh new_s st) :
    frame_center_local fw fh (rescale_about_center fw fh new_s st)
      = frame_center_local fw fh st
    ∧ reset_image_scale_100 fw fh st = rescale_about_center fw fh 1 st
    ∧ set_image_scale_percent fw fh p st
        = rescale_about_center fw fh (max 1 (min 5000 p) / 100) st
    ∧ (¬ |zoom_new_s zin step st.s - st.s| < 1 / 10 ^ 12 →
        zoom_image fw fh zin step st
          = rescale_about_center fw fh (zoom_new_s zin step st.s) st) := by
  refine ⟨?_, rfl, rfl, fun h => by simp only [zoom_image]; rw [if_neg h]⟩
  rw [rescale_about_center, hnc]
  simp only [frame_center_local, rescale_about_center_raw]
  refine Prod.ext ?_ ?_ <;> · field_simp; ring

/-- Witness for C4: frame 1920×1080, image 800×600 at scale 1, position
(240, 0), rescaled to scale 2; the clamp does not move the rescaled
position and the frame-center image-local point is preserved. -/
theorem anchor_preserving_rescale_witness :
    ((⟨800, 600, 1, 240, 0⟩ : ImgState).s ≠ 0) ∧ ((2 : ℚ) ≠ 0)
    ∧ clamp_image_pos 1920 1080
        (rescale_about_center_raw 1920 1080 2 ⟨800, 600, 1, 240, 0⟩)
        = rescale_about_center_raw 1920 1080 2 ⟨800, 600, 1, 240, 0⟩
    ∧ frame_center_local 1920 1080
        (rescale_about_center 1920 1080 2 ⟨800, 600, 1, 240, 0⟩)
        = frame_center_local 1920 1080 ⟨800, 600, 1, 240, 0⟩ := by
  have hnc : clamp_image_pos 1920 1080
      (rescale_about_center_raw 1920 1080 2 ⟨800, 600, 1, 240, 0⟩)
      = rescale_about_center_raw 1920 1080 2 ⟨800, 600, 1, 240, 0⟩ := by
    simp only [rescale_about_center_raw]
    refine ImgState.ext rfl rfl rfl ?_ ?_ <;>
      norm_num [clamp_image_pos_x, clamp_image_pos_y, min_def, max_def]
  exact ⟨by norm_num, by norm_num, hnc,
    (anchor_preserving_rescale 1920 1080 2 150 ⟨800, 600, 1, 240, 0⟩
      true .normal (by norm_num) (by norm_num) hnc).1⟩

/-- C3, counterexample: with frame 1920×1080 and image 800×600 at scale 1
positioned at (0, 0), `fit_image_to_width` moves the vertical position to
−180 ≠ 0 — fit-width does not leave `position.y` untouched. -/
theorem fit_width_moves_y_counterexample :
    (fit_image_to_width 1920 1080 ⟨800, 600, 1, 0, 0⟩).y = -180
    ∧ (-180 : ℚ) ≠ (⟨800, 600, 1, 0, 0⟩ : ImgState).y := by
  constructor
  · norm_num [fit_image_to_width, apply_image_scale_and_center,
      clamp_image_pos_y, min_def, max_def]
  · norm_num

/-- C3, amended: fit-width sets `scale = fw / iw` and then re-centres the
position in BOTH axes — `x = (fw − iw·s)/2` and `y = (fh − ih·s)/2` — before
the final clamp (and fit-height does the same with `s = fh / ih`); the
cross-axis position is re-centred, not left untouched. -/
theorem fit_width_rescales_and_centers_both_axes (fw fh : ℚ) (st : ImgState) :
    fit_image_to_width fw fh st
      = clamp_image_pos fw fh
          { st with s := fw / st.iw,
                    x := (fw - st.iw * (fw / st.iw)) / 2,
                    y := (fh - st.ih * (fw / st.iw)) / 2 }
    ∧ (fit_image_to_width fw fh st).s = fw / st.iw
    ∧ fit_image_to_height fw fh st
      = clamp_image_pos fw fh
          { st with s := fh / st.ih,
                    x := (fw - st.iw * (fh / st.ih)) / 2,
                    y := (fh - st.ih * (fh / st.ih)) / 2 }
    ∧ (fit_image_to_height fw fh st).s = fh / st.ih :=
  ⟨rfl, rfl, rfl, rfl⟩

/-- C5, counterexample: from the reachable scale `0.02 − 10⁻¹³` (set via the
percent field with percent `2 − 10⁻¹¹`), a normal zoom-out computes the
clamped candidate `0.02`, but `|0.02 − old| = 10⁻¹³ < 10⁻¹²` triggers the
early return, so the resulting scale is NOT the clamped value
`max(0.02, min(50, old / 1.15))` and lies below 0.02. -/
theorem zoom_clamp_counterexample :
    (zoom_image 1920 1080 false .normal ⟨100, 100, 2/100 - 1/10^13, 0, 0⟩).s
      ≠ max (2/100) (min 50 ((2/100 - 1/10^13) * (1 / (115/100))))
    ∧ (zoom_image 1920 1080 false .normal ⟨100, 100, 2/100 - 1/10^13, 0, 0⟩).s
      < 2/100
    ∧ (set_image_scale_percent 1920 1080 (2 - 1/10^11)
        ⟨100, 100, 1, 0, 0⟩).s = 2/100 - 1/10^13 := by
  have hz : (zoom_image 1920 1080 false .normal
      ⟨100, 100, 2/100 - 1/10^13, 0, 0⟩).s = 2/100 - 1/10^13 := by
    have hcond : |zoom_new_s false .normal (2/100 - 1/10^13) - (2/100 - 1/10^13)|
        < 1 / 10 ^ 12 := by
      norm_num [zoom_new_s, zoom_base, min_def, max_def, abs]
    simp only [zoom_image]
    rw [if_pos hcond]
  refine ⟨?_, ?_, ?_⟩
  · rw [hz]; norm_num [min_def, max_def]
  · rw [hz]; norm_num
  · simp only [set_image_scale_percent, rescale_about_center,
      clamp_image_pos_s, rescale_about_center_raw]
    norm_num [min_def, max_def]

/-- C5, amended: the wheel-zoom candidate scale is
`max(0.02, min(50, old·factor))` with factor 1.15 / 1.03 / 1.01 (or its
reciprocal when zooming out); the candidate always lies in [0.02, 50]; the
zoom APPLIES the candidate unless it differs from the current scale by less
than 1e-12, in which case the scale is left unchanged; and the percent path
clamps the percentage to [1, 5000] with resulting scale = percent / 100
(so percent = scale × 100 stays in [1, 5000]). -/
theorem zoom_step_and_percent_rules (fw fh p : ℚ) (st : ImgState)
    (zin : Bool) (step : ZoomStep) :
    zoom_base .normal = 115/100 ∧ zoom_base .fine = 103/100
    ∧ zoom_base .ultra = 101/100
    ∧ zoom_new_s zin step st.s
        = max (2/100)
            (min 50 (st.s * (if zin then zoom_base step else 1 / zoom_base step)))
    ∧ 2/100 ≤ zoom_new_s zin step st.s ∧ zoom_new_s zin step st.s ≤ 50
    ∧ (zoom_image fw fh zin step st).s
        = (if |zoom_new_s zin step st.s - st.s| < 1 / 10 ^ 12 then st.s
           else zoom_new_s zin step st.s)
    ∧ (set_image_scale_percent fw fh p st).s = max 1 (min 5000 p) / 100
    ∧ 1 ≤ 100 * (set_image_scale_percent fw fh p st).s
    ∧ 100 * (set_image_scale_percent fw fh p st).s ≤ 5000 := by
  have hperc : (set_image_scale_percent fw fh p st).s = max 1 (min 5000 p) / 100 := rfl
  refine ⟨rfl, rfl, rfl, rfl, le_max_left _ _, ?_, ?_, hperc, ?_, ?_⟩
  · have h50 : min 50 (st.s * (if zin then zoom_base step else 1 / zoom_base step))
        ≤ 50 := min_le_left _ _
    simp only [zoom_new_s]
    exact max_le (by norm_num) h50
  · simp only [zoom_image]
    split_ifs with h
    · rfl
    · exact clamp_image_pos_s _ _ _
  · rw [hperc]
    have : (1:ℚ) ≤ max 1 (min 5000 p) := le_max_left _ _
    linarith
  · rw [hperc]
    have h1 : min 5000 p ≤ 5000 := min_le_left _ _
    have : max 1 (min 5000 p) ≤ 5000 := max_le (by norm_num) h1
    linarith

/-- C6: the initial placement on load sets the fit-contain scale
`s = min(fw/iw, fh/ih)` and centres the image,
`position = ((fw − iw·s)/2, (fh − ih·s)/2)` — the final clamp never moves
this centred position — and on frame 1920×1080 with image 800×600 this
gives scale 9/5 = 1.8 and position (240, 0). -/
theorem initial_placement_contain_centered (fw fh : ℚ) (st : ImgState)
    (hfw : 0 < fw) (hfh : 0 < fh) (hiw : 0 < st.iw) (hih : 0 < st.ih) :
    place_image_initial fw fh st
      = { st with s := min (fw / st.iw) (fh / st.ih),
                  x := (fw - st.iw * min (fw / st.iw) (fh / st.ih)) / 2,
                  y := (fh - st.ih * min (fw / st.iw) (fh / st.ih)) / 2 }
    ∧ place_image_initial 1920 1080 ⟨800, 600, 1, 0, 0⟩
      = ⟨800, 600, 9/5, 240, 0⟩ := by
  constructor
  · have hs0 : 0 < min (fw / st.iw) (fh / st.ih) :=
      lt_min (div_pos hfw hiw) (div_pos hfh hih)
    have hA0 : 0 ≤ st.iw * min (fw / st.iw) (fh / st.ih) :=
      mul_nonneg hiw.le hs0.le
    have hAfw : st.iw * min (fw / st.iw) (fh / st.ih) ≤ fw := by
      have h := min_le_left (fw / st.iw) (fh / st.ih)
      have := mul_le_mul_of_nonneg_left h hiw.le
      calc st.iw * min (fw / st.iw) (fh / st.ih)
          ≤ st.iw * (fw / st.iw) := this
        _ = fw := by field_simp
    have hB0 : 0 ≤ st.ih * min (fw / st.iw) (fh / st.ih) :=
      mul_nonneg hih.le hs0.le
    have hBfh : st.ih * min (fw / st.iw) (fh / st.ih) ≤ fh := by
      have h := min_le_right (fw / st.iw) (fh / st.ih)
      have := mul_le_mul_of_nonneg_left h hih.le
      calc st.ih * min (fw / st.iw) (fh / st.ih)
          ≤ st.ih * (fh / st.ih) := this
        _ = fh := by field_simp
    simp only [place_image_initial]
    refine ImgState.ext rfl rfl rfl ?_ ?_
    · rw [clamp_image_pos_x]
      simp only
      rw [max_eq_right (by linarith), min_eq_right (by linarith)]
    · rw [clamp_image_pos_y]
      simp only
      rw [max_eq_right (by linarith), min_eq_right (by linarith)]
  · simp only [place_image_initial]
    refine ImgState.ext rfl rfl ?_ ?_ ?_ <;>
      norm_num [clamp_image_pos_x, clamp_image_pos_y, clamp_image_pos_s,
        min_def, max_def]

/-- Witness for C6 at frame 1920×1080, image 800×600. -/
theorem initial_placement_contain_centered_witness :
    0 < (1920 : ℚ) ∧ 0 < (1080 : ℚ)
    ∧ place_image_initial 1920 1080 ⟨800, 600, 1, 0, 0⟩
      = ⟨800, 600, 9/5, 240, 0⟩ :=
  ⟨by norm_num, by norm_num,
    (initial_placement_contain_centered 1920 1080 ⟨800, 600, 1, 0, 0⟩
      (by norm_num) (by norm_num) (by norm_num) (by norm_num)).2⟩

/-- C9: the clamp rule is idempotent, for every frame and every state. -/
theorem clamp_image_pos_idem (fw fh : ℚ) (st : ImgState) :
    clamp_image_pos fw fh (clamp_image_pos fw fh st) = clamp_image_pos fw fh st := by
  simp only [clamp_image_pos]
  refine ImgState.ext rfl rfl rfl ?_ ?_ <;>
  · simp only [min_def, max_def]
    split_ifs <;> linarith

/-- C7: with no image loaded, `_render_output_pil` returns the freshly
allocated canvas unchanged — exactly `fw × fh`, every pixel the opaque
background color — whatever the imaging-library primitives do. -/
theorem render_no_image_uniform_bg
    (exifTranspose convertRGBA : PILImage → PILImage)
    (resizeFn : PILImage → ℤ × ℤ → PILImage)
    (pasteFn : PILImage → PILImage → ℤ × ℤ → PILImage)
    (convertRGB : PILImage → PILImage)
    (fw fh bgR bgG bgB : ℕ) (s x y : ℚ) :
    render_output_pil exifTranspose convertRGBA resizeFn pasteFn convertRGB
        fw fh bgR bgG bgB none s x y
      = imageNew fw fh ⟨bgR, bgG, bgB, 255⟩
    ∧ (render_output_pil exifTranspose convertRGBA resizeFn pasteFn convertRGB
        fw fh bgR bgG bgB none s x y).w = fw
    ∧ (render_output_pil exifTranspose convertRGBA resizeFn pasteFn convertRGB
        fw fh bgR bgG bgB none s x y).h = fh
    ∧ ∀ px py, (render_output_pil exifTranspose convertRGBA resizeFn pasteFn
        convertRGB fw fh bgR bgG bgB none s x y).pix px py
          = ⟨bgR, bgG, bgB, 255⟩ :=
  ⟨rfl, rfl, rfl, fun _ _ => rfl⟩

/-- C10: the resize dimensions of composite rendering are
`max(1, round(iw·s)) × max(1, round(ih·s))`, hence always at least 1×1 —
the zero-size branch is unreachable, also when `round(iw·s) = 0` as in the
concrete instance `iw = ih = 100`, `s = 1/1000`. -/
theorem resize_dims_at_least_one (srcW srcH : ℕ) (s : ℚ) :
    render_resize_dims srcW srcH s
      = (max 1 (pyRound (srcW * s)), max 1 (pyRound (srcH * s)))
    ∧ 1 ≤ (render_resize_dims srcW srcH s).1
    ∧ 1 ≤ (render_resize_dims srcW srcH s).2
    ∧ pyRound ((100 : ℕ) * ((1 : ℚ)/1000)) = 0
    ∧ render_resize_dims 100 100 (1/1000) = (1, 1) := by
  have hr : pyRound ((100 : ℕ) * ((1 : ℚ)/1000)) = 0 := by
    have h1 : ((100 : ℕ) : ℚ) * ((1 : ℚ)/1000) = 1/10 := by norm_num
    rw [pyRound, h1]
    norm_num
  refine ⟨rfl, le_max_left _ _, le_max_left _ _, hr, ?_⟩
  simp only [render_resize_dims]
  rw [Prod.mk.injEq]
  constructor <;> · rw [hr]; norm_num [max_def]

/-- C8: remembering a value in a recent list (custom sizes, background
colors) puts it at the front, removes every other occurrence of it, keeps
the remaining entries in order (most-recent-first), preserves
duplicate-freeness and caps the length at 10. -/
theorem remember_recent_lists (sizes : List (ℤ × ℤ)) (w h : ℤ)
    (cols : List String) (c : String)
    (hns : sizes.Nodup) (hnc : cols.Nodup) :
    (remember_custom_size sizes w h).length ≤ 10
    ∧ (remember_custom_size sizes w h).head? = some (w, h)
    ∧ (remember_custom_size sizes w h).tail
        = (sizes.filter (fun s => s ≠ (w, h))).take 9
    ∧ (w, h) ∉ (remember_custom_size sizes w h).tail
    ∧ (remember_custom_size sizes w h).Nodup
    ∧ (remember_bg_color cols c).length ≤ 10
    ∧ (remember_bg_color cols c).head? = some c
    ∧ (remember_bg_color cols c).tail = (cols.filter (fun x => x ≠ c)).take 9
    ∧ c ∉ (remember_bg_color cols c).tail
    ∧ (remember_bg_color cols c).Nodup := by
  have hseq : remember_custom_size sizes w h
      = (w, h) :: (sizes.filter (fun s => s ≠ (w, h))).take 9 := rfl
  have hceq : remember_bg_color cols c
      = c :: (cols.filter (fun x => x ≠ c)).take 9 := rfl
  have hsmem : (w, h) ∉ (sizes.filter (fun s => s ≠ (w, h))).take 9 := by
    intro hmem
    have := List.mem_filter.mp (List.take_subset _ _ hmem)
    simp at this
  have hcmem : c ∉ (cols.filter (fun x => x ≠ c)).take 9 := by
    intro hmem
    have := List.mem_filter.mp (List.take_subset _ _ hmem)
    simp at this
  refine ⟨?_, by simp [hseq], by simp [hseq], ?_, ?_, ?_, by simp [hceq],
    by simp [hceq], ?_, ?_⟩
  · rw [hseq]
    have := List.length_take_le 9 (sizes.filter (fun s => s ≠ (w, h)))
    simp only [List.length_cons]
    omega
  · rw [hseq]; exact hsmem
  · rw [hseq]
    exact List.Nodup.cons hsmem ((hns.filter _).sublist (List.take_sublist _ _))
  · rw [hceq]
    have := List.length_take_le 9 (cols.filter (fun x => x ≠ c))
    simp only [List.length_cons]
    omega
  · rw [hceq]; exact hcmem
  · rw [hceq]
    exact List.Nodup.cons hcmem ((hnc.filter _).sublist (List.take_sublist _ _))

/-- Witness for C8 on concrete recent lists where the remembered value is
already present in second position. -/
theorem remember_recent_lists_witness :
    ([((1 : ℤ), (2 : ℤ)), (3, 4)]).Nodup
    ∧ (["#FFFFFF", "#000000"]).Nodup
    ∧ remember_custom_size [(1, 2), (3, 4)] 3 4 = [(3, 4), (1, 2)]
    ∧ remember_bg_color ["#FFFFFF", "#000000"] "#000000"
        = ["#000000", "#FFFFFF"]
    ∧ (remember_custom_size [(1, 2), (3, 4)] 3 4).head? = some (3, 4)
    ∧ (remember_bg_color ["#FFFFFF", "#000000"] "#000000").head?
        = some "#000000" := by
  refine ⟨by decide, by decide, by decide, by decide, ?_, ?_⟩
  · exact (remember_recent_lists [(1, 2), (3, 4)] 3 4
      ["#FFFFFF", "#000000"] "#000000" (by decide) (by decide)).2.1
  · exact (remember_recent_lists [(1, 2), (3, 4)] 3 4
      ["#FFFFFF", "#000000"] "#000000" (by decide) (by decide)).2.2.2.2.2.2.1

end FixedCropper
